import Mathlib

/-!
Shallow embedding of `functions/stats.js` (LibreTV statistics endpoint).

The source is a single Netlify function keeping two module-level mutable
structures: a `Map` from session id to session record, and a bounded array of
page-view records, plus a `lastCleanup` timestamp.  The exported handler
dispatches on path suffix and HTTP method.

Modelling conventions:
* Machine time (`Date.now()`) is a `Nat` of milliseconds passed in as `now`;
  every call of `Date.now()` inside one request is the same instant.
* An ISO-8601 timestamp produced by `new Date().toISOString()` and parsed back
  by `new Date(s)` round-trips the millisecond value exactly, so a `PageView`
  stores the `Nat` milliseconds directly; `toISOStringOf` below renders the
  string for the serialized body.
* `toDateString` comparison of two `Date` values is equality of calendar days;
  it is modelled as the UTC day index (local-time bucketing only shifts the
  day boundary and no claim depends on the boundary).
* A request body is modelled after `JSON.parse`: `none` is a body on which
  `JSON.parse` throws, `some .jnull` is a body whose JSON value is `null`
  (property access on it throws a `TypeError`), `some (.jobj sid page)` is an
  object carrying the two fields the code reads.  Objects with missing or
  extra fields and non-object non-null JSON values are outside the model; no
  claim depends on them.
* The JS `Map` is a list of key-value pairs in insertion order; `Map.set` on
  an existing key overwrites in place, otherwise appends; `Map.delete`
  removes the entry of that key (keys are unique in a JS `Map`, so removing
  every pair with that key is the same operation); `Map.get` finds the entry.
* A JS exception is `Except.error ()`; mutations of the module-level state
  performed before a throw survive it, so each route handler returns the new
  state alongside `Except Unit Response`.
* The exported handler can fall off the end of the `switch` (known path,
  wrong method: the `break` leaves the `try` block and the function returns
  `undefined`), hence its response type is `Option Response`.
-/

namespace LibreTVStats

/-- Session record: `sessionId`, `firstSeen` and `lastHeartbeat` in ms epoch,
and the current page, exactly the object built in `handlePageView`. -/
structure Session where
  sessionId : String
  firstSeen : Nat
  lastHeartbeat : Nat
  currentPage : String
deriving DecidableEq, Repr

/-- Page-view record: the fields of the parsed body spread into the stored
object plus the server-assigned timestamp.  A body of JSON `null` spreads no
fields, so the two client fields are optional (`none` models a JS field that
is absent). -/
structure PageView where
  sessionId : Option String
  page : Option String
  timestamp : Nat
deriving DecidableEq, Repr

/-- The module-level mutable state of `functions/stats.js`: the session map,
the page-view array and the time of the last cleanup sweep. -/
structure StatsState where
  sessions : List (String × Session)
  pageViews : List PageView
  lastCleanup : Nat
deriving DecidableEq, Repr

/-- Result of `JSON.parse` on a request body, restricted to the shapes the
code distinguishes: the JSON value `null`, or an object with the two fields
the handlers read. -/
inductive BodyVal where
  | jnull : BodyVal
  | jobj (sessionId : String) (page : String) : BodyVal
deriving DecidableEq, Repr

/-- Incoming request: HTTP method, raw path, and the body as seen through
`JSON.parse` (`none` when parsing would throw). -/
structure Event where
  httpMethod : String
  path : String
  body : Option BodyVal
deriving DecidableEq, Repr

/-- HTTP response: status code, header list and serialized body string. -/
structure Response where
  statusCode : Nat
  headers : List (String × String)
  body : String
deriving DecidableEq, Repr

/-- The constant CORS header object installed on every response. -/
def corsHeaders : List (String × String) :=
  [("Access-Control-Allow-Origin", "*"),
   ("Access-Control-Allow-Headers", "Content-Type"),
   ("Access-Control-Allow-Methods", "GET, POST, OPTIONS"),
   ("Content-Type", "application/json")]

/-- JS `Map.has`: is some entry keyed `k` present. -/
def mapHas (m : List (String × Session)) (k : String) : Bool :=
  m.any (fun e => e.1 == k)

/-- JS `Map.get`: the value stored under `k`, if any. -/
def mapGet (m : List (String × Session)) (k : String) : Option Session :=
  (m.find? (fun e => e.1 == k)).map (fun e => e.2)

/-- JS `Map.set`: overwrite the entry keyed `k` in place, else append. -/
def mapSet (m : List (String × Session)) (k : String) (v : Session) :
    List (String × Session) :=
  if mapHas m k then m.map (fun e => if e.1 == k then (k, v) else e)
  else m ++ [(k, v)]

/-- JS `Map.delete`: drop the entry keyed `k` (keys are unique in a map). -/
def mapDelete (m : List (String × Session)) (k : String) :
    List (String × Session) :=
  m.filter (fun e => !(e.1 == k))

/-- The `cleanup` function: evict every session whose `lastHeartbeat` is
strictly older than five minutes before `now`, and stamp `lastCleanup`.
Natural subtraction agrees with JS here: for `now < 300000` the JS cutoff is
negative and nothing is evicted, and `lastHeartbeat < 0` is likewise never
true of a `Nat`. -/
def cleanup (now : Nat) (st : StatsState) : StatsState :=
  { st with
    sessions := st.sessions.filter
      (fun e => !(decide (e.2.lastHeartbeat < now - 5 * 60 * 1000))),
    lastCleanup := now }

/-- Drop the first occurrence of `pat` inside `s`, as
`String.prototype.replace(pat, the empty string)` with a string pattern does;
if `pat` never occurs, `s` is returned unchanged. -/
def replaceFirst (pat : List Char) : List Char → List Char
  | [] => []
  | c :: cs =>
    if pat.isPrefixOf (c :: cs) then (c :: cs).drop pat.length
    else c :: replaceFirst pat cs

/-- The path suffix: `event.path.replace(the mount path, the empty string)`
with mount path `/.netlify/functions/stats`. -/
def stripStats (p : String) : String :=
  String.mk (replaceFirst "/.netlify/functions/stats".data p.data)

/-- Day index of a ms-epoch instant; two instants fall on the same calendar
day exactly when their `toDateString` values coincide. -/
def toDateString (ms : Nat) : Nat := ms / 86400000

/-- Two-digit zero-padded decimal. -/
def pad2 (n : Nat) : String := if n < 10 then "0" ++ toString n else toString n

/-- Three-digit zero-padded decimal. -/
def pad3 (n : Nat) : String :=
  if n < 10 then "00" ++ toString n
  else if n < 100 then "0" ++ toString n
  else toString n

/-- `new Date(ms).toISOString()` for nonnegative ms-epoch instants in years
with four-digit numerals, via the standard civil-from-days conversion. -/
def toISOStringOf (ms : Nat) : String :=
  let msec := ms % 1000
  let totalSec := ms / 1000
  let sec := totalSec % 60
  let totalMin := totalSec / 60
  let minute := totalMin % 60
  let totalHr := totalMin / 60
  let hour := totalHr % 24
  let days := totalHr / 24
  let z := days + 719468
  let era := z / 146097
  let doe := z % 146097
  let yoe := (doe - doe / 1460 + doe / 36524 - doe / 146096) / 365
  let y := yoe + era * 400
  let doy := doe - (365 * yoe + yoe / 4 - yoe / 100)
  let mp := (5 * doy + 2) / 153
  let d := doy - (153 * mp + 2) / 5 + 1
  let m := if mp < 10 then mp + 3 else mp - 9
  let year := if m ≤ 2 then y + 1 else y
  toString year ++ "-" ++ pad2 m ++ "-" ++ pad2 d ++ "T" ++
    pad2 hour ++ ":" ++ pad2 minute ++ ":" ++ pad2 sec ++ "." ++ pad3 msec ++ "Z"

/-- Lowercase hex digit. -/
def hexDigit (n : Nat) : String :=
  if n < 10 then toString n
  else if n = 10 then "a" else if n = 11 then "b" else if n = 12 then "c"
  else if n = 13 then "d" else if n = 14 then "e" else "f"

/-- `JSON.stringify` escaping of one character inside a string literal. -/
def escChar (c : Char) : String :=
  if c = '"' then "\\\""
  else if c = '\\' then "\\\\"
  else if c = '\x08' then "\\b"
  else if c = '\x09' then "\\t"
  else if c = '\x0a' then "\\n"
  else if c = '\x0c' then "\\f"
  else if c = '\x0d' then "\\r"
  else if c.toNat < 32 then "\\u00" ++ hexDigit (c.toNat / 16) ++ hexDigit (c.toNat % 16)
  else String.singleton c

/-- `JSON.stringify` of a string value. -/
def jsonString (s : String) : String :=
  "\"" ++ String.join (s.data.map escChar) ++ "\""

/-- Serialized `\x7b error: "Not found" \x7d`. -/
def notFoundBody : String := "\x7b\"error\":\"Not found\"\x7d"

/-- Serialized `\x7b error: "Internal server error" \x7d`. -/
def serverErrorBody : String := "\x7b\"error\":\"Internal server error\"\x7d"

/-- Serialized success body of `handlePageView`. -/
def pageViewOkBody : String :=
  "\x7b\"success\":true,\"message\":\"Page view recorded\"\x7d"

/-- Serialized success body of `handleHeartbeat`. -/
def heartbeatOkBody : String :=
  "\x7b\"success\":true,\"message\":\"Heartbeat received\"\x7d"

/-- Serialized success body of `handleOffline`. -/
def offlineOkBody : String :=
  "\x7b\"success\":true,\"message\":\"User offline\"\x7d"

/-- A JavaScript primitive value that can end up stored as a count in the
page-stats accumulator: a number, or a string produced by the `+` operator
after a truthy non-numeric prototype-chain lookup. -/
inductive JsVal where
  | num (n : Nat) : JsVal
  | str (s : String) : JsVal
deriving DecidableEq, Repr

/-- The numeric reading of a stored count; used to state the ordering on
lists whose counts are all numbers (a garbage string reads as 0, but no such
entry exists under the cleanliness hypothesis). -/
def numOfJs : JsVal → Nat
  | .num n => n
  | .str _ => 0

/-- `JSON.stringify` of a stored count: a number serializes bare, a garbage
string serializes as a JSON string. -/
def jsonOfJsVal : JsVal → String
  | .num n => toString n
  | .str s => jsonString s

/-- The function-valued own string-keyed properties of `Object.prototype`
(ES2023 20.1.3) that a plain-object lookup inherits, each mapped to the
source text `Function.prototype.toString` renders for it on V8, the engine
Netlify functions run on (`constructor` holds the `Object` constructor
itself, hence its text). -/
def protoFunctionSrc (k : String) : Option String :=
  if k = "constructor" then some "function Object() \x7b [native code] \x7d"
  else if k = "hasOwnProperty" then
    some "function hasOwnProperty() \x7b [native code] \x7d"
  else if k = "isPrototypeOf" then
    some "function isPrototypeOf() \x7b [native code] \x7d"
  else if k = "propertyIsEnumerable" then
    some "function propertyIsEnumerable() \x7b [native code] \x7d"
  else if k = "toLocaleString" then
    some "function toLocaleString() \x7b [native code] \x7d"
  else if k = "toString" then some "function toString() \x7b [native code] \x7d"
  else if k = "valueOf" then some "function valueOf() \x7b [native code] \x7d"
  else if k = "__defineGetter__" then
    some "function __defineGetter__() \x7b [native code] \x7d"
  else if k = "__defineSetter__" then
    some "function __defineSetter__() \x7b [native code] \x7d"
  else if k = "__lookupGetter__" then
    some "function __lookupGetter__() \x7b [native code] \x7d"
  else if k = "__lookupSetter__" then
    some "function __lookupSetter__() \x7b [native code] \x7d"
  else none

/-- Is `k` one of the string-keyed own properties of `Object.prototype` that
a lookup or assignment on a plain object literal inherits. -/
def protoKey (k : String) : Bool :=
  (protoFunctionSrc k).isSome || k == "__proto__"

/-- Serialized `\x7b page, count \x7d` entry of the popular-pages array. -/
def pageCountJson (e : String × JsVal) : String :=
  "\x7b\"page\":" ++ jsonString e.1 ++ ",\"count\":" ++ jsonOfJsVal e.2 ++ "\x7d"

/-- Serialized body of the `/current` summary, field order as in the object
literal of `getCurrentStats`. -/
def statsBody (onlineUsers todayViews totalViews : Nat)
    (pp : List (String × JsVal)) (nowMs : Nat) : String :=
  "\x7b\"onlineUsers\":" ++ toString onlineUsers ++
  ",\"todayViews\":" ++ toString todayViews ++
  ",\"totalViews\":" ++ toString totalViews ++
  ",\"popularPages\":[" ++ String.intercalate "," (pp.map pageCountJson) ++
  "],\"timestamp\":" ++ jsonString (toISOStringOf nowMs) ++ "\x7d"

/-- The 200 response of a CORS preflight. -/
def respOptions : Response := ⟨200, corsHeaders, ""⟩

/-- The 404 response of the default switch branch. -/
def resp404 : Response := ⟨404, corsHeaders, notFoundBody⟩

/-- The 500 response of the catch-all error branch. -/
def resp500 : Response := ⟨500, corsHeaders, serverErrorBody⟩

/-- The 200 response of `handlePageView`. -/
def respPageView : Response := ⟨200, corsHeaders, pageViewOkBody⟩

/-- The 200 response of `handleHeartbeat`. -/
def respHeartbeat : Response := ⟨200, corsHeaders, heartbeatOkBody⟩

/-- The 200 response of `handleOffline`. -/
def respOffline : Response := ⟨200, corsHeaders, offlineOkBody⟩

/-- The page-view record pushed by `handlePageView`: the spread of the parsed
body (no fields for JSON `null`) plus the server timestamp. -/
def pvOfBody (data : BodyVal) (now : Nat) : PageView :=
  match data with
  | .jnull => ⟨none, none, now⟩
  | .jobj sid pg => ⟨some sid, some pg, now⟩

/-- `pageViews = pageViews.slice(-1000)` applied when the length exceeds
1000: keep the most recent 1000 records. -/
def truncateViews (l : List PageView) : List PageView :=
  if l.length > 1000 then l.drop (l.length - 1000) else l

/-- `handlePageView`: parse the body (throw on parse failure), push the
spread record and truncate, then read `data.sessionId` (throwing on a `null`
body with the push already performed) and upsert the session. -/
def handlePageView (now : Nat) (event : Event) (st : StatsState) :
    Except Unit Response × StatsState :=
  match event.body with
  | none => (.error (), st)
  | some data =>
    let st1 : StatsState :=
      { st with pageViews := truncateViews (st.pageViews ++ [pvOfBody data now]) }
    match data with
    | .jnull => (.error (), st1)
    | .jobj sid pg =>
      let sess : Session :=
        { sessionId := sid,
          firstSeen := match mapGet st1.sessions sid with
            | some s => s.firstSeen
            | none => now,
          lastHeartbeat := now,
          currentPage := pg }
      (.ok respPageView, { st1 with sessions := mapSet st1.sessions sid sess })

/-- `handleHeartbeat`: parse the body, and when the session exists overwrite
its `lastHeartbeat`; a `null` body throws before any mutation. -/
def handleHeartbeat (now : Nat) (event : Event) (st : StatsState) :
    Except Unit Response × StatsState :=
  match event.body with
  | none => (.error (), st)
  | some .jnull => (.error (), st)
  | some (.jobj sid _) =>
    let sessions := match mapGet st.sessions sid with
      | some s => mapSet st.sessions sid { s with lastHeartbeat := now }
      | none => st.sessions
    (.ok respHeartbeat, { st with sessions := sessions })

/-- `handleOffline`: parse the body and delete the session of that id; a
`null` body throws before any mutation. -/
def handleOffline (now : Nat) (event : Event) (st : StatsState) :
    Except Unit Response × StatsState :=
  match event.body with
  | none => (.error (), st)
  | some .jnull => (.error (), st)
  | some (.jobj sid _) =>
    (.ok respOffline, { st with sessions := mapDelete st.sessions sid })

/-- The page views of the current calendar day, the filter computed (twice,
with identical results) by `getCurrentStats`. -/
def todaysViews (now : Nat) (pvs : List PageView) : List PageView :=
  pvs.filter (fun v => toDateString v.timestamp == toDateString now)

/-- Grouping key of a page view: property keys are strings, so an absent
`page` field groups under the string rendering of `undefined`. -/
def pageKey : Option String → String
  | some p => p
  | none => "undefined"

/-- The read half of `pageStats[k] = (pageStats[k] || 0) + 1`: an ordinary
[[Get]] finds the own property if present, else walks the prototype chain of
the plain object literal.  Composed with `(x || 0) + 1`: an absent or falsy
value yields the number 1, a numeric own value is incremented, a (nonempty)
string own value gets `"1"` concatenated, an inherited `Object.prototype`
method yields its source text with `"1"` appended, and the inherited
`__proto__` accessor yields the prototype object, which `+ 1` renders as
`[object Object]` followed by `1`. -/
def bumpRead (acc : List (String × JsVal)) (k : String) : JsVal :=
  match acc.find? (fun e => e.1 == k) with
  | some (_, .num n) => .num (n + 1)
  | some (_, .str s) => if s = "" then .num 1 else .str (s ++ "1")
  | none =>
    match protoFunctionSrc k with
    | some src => .str (src ++ "1")
    | none =>
      if k = "__proto__" then .str "[object Object]1"
      else .num 1

/-- The write half, `pageStats[k] = v`: overwrite an existing own property in
place, else create one — except that with no own property named `__proto__`
the assignment reaches the inherited `__proto__` setter, which silently
ignores a primitive value (ES2023 B.2.2.1.2), so that key is dropped. -/
def bumpWrite (acc : List (String × JsVal)) (k : String) (v : JsVal) :
    List (String × JsVal) :=
  if acc.any (fun e => e.1 == k) then
    acc.map (fun e => if e.1 == k then (e.1, v) else e)
  else if k = "__proto__" then acc
  else acc ++ [(k, v)]

/-- One step of the `pageStats` accumulation:
`pageStats[k] = (pageStats[k] || 0) + 1`, read then write. -/
def bumpPage (acc : List (String × JsVal)) (k : String) :
    List (String × JsVal) :=
  bumpWrite acc k (bumpRead acc k)

/-- The `pageStats` object: the own enumerable entries accumulated over the
given views, in insertion order of first occurrence.  (JS objects enumerate
integer-like keys first; that only permutes the input of the stable sort
among entries the comparator ties, an order the spec leaves unspecified.) -/
def pageStats (views : List PageView) : List (String × JsVal) :=
  views.foldl (fun acc v => bumpPage acc (pageKey v.page)) []

/-- The sort comparator of the source, `(a, b) => b - a`, as the may-precede
relation `comparator ≤ 0` of a stable sort: numeric descending on two
numbers; a garbage string converts to NaN (every string the accumulator can
store starts with `function` or `[object`), which `SortCompare` treats as +0
(ES2023 23.1.3.30.2), i.e. a tie.  With a string count present the
comparator is inconsistent and ECMAScript leaves the final order
implementation-defined; V8 sorts stably treating each NaN comparison as a
tie, which is what `mergeSort` under this relation computes. -/
def jsSortLe (a b : String × JsVal) : Bool :=
  match a.2, b.2 with
  | .num na, .num nb => decide (nb ≤ na)
  | _, _ => true

/-- `popularPages`: sort the accumulated entries by the comparator (JS `sort`
is stable; `List.mergeSort` is the same stable sort) and keep the first
ten. -/
def popularPages (views : List PageView) : List (String × JsVal) :=
  ((pageStats views).mergeSort jsSortLe).take 10

/-- `getCurrentStats`: compute the summary from the current state; the state
is not modified and nothing can throw. -/
def getCurrentStats (now : Nat) (st : StatsState) :
    Except Unit Response × StatsState :=
  let today := todaysViews now st.pageViews
  (.ok ⟨200, corsHeaders,
        statsBody st.sessions.length today.length st.pageViews.length
          (popularPages today) now⟩,
   st)

/-- The try/catch around the switch: a thrown exception becomes the 500
response, and the module-level state as mutated so far is kept. -/
def tryRun : Except Unit Response × StatsState → Option Response × StatsState
  | (.ok r, st) => (some r, st)
  | (.error _, st) => (some resp500, st)

/-- The state after the lazy sweep gate: run `cleanup` when more than 60000
ms have elapsed since the last sweep, else leave the state alone. -/
def preState (now : Nat) (st : StatsState) : StatsState :=
  if now - st.lastCleanup > 60000 then cleanup now st else st

/-- The `switch` statement of the exported handler.  A matched case with the
wrong method executes `break`, leaves the try block and falls off the end of
the function: no response object is produced (`none`). -/
def dispatch (now : Nat) (event : Event) (st : StatsState) :
    Option Response × StatsState :=
  if stripStats event.path = "/pageview" then
    if event.httpMethod = "POST" then tryRun (handlePageView now event st)
    else (none, st)
  else if stripStats event.path = "/heartbeat" then
    if event.httpMethod = "POST" then tryRun (handleHeartbeat now event st)
    else (none, st)
  else if stripStats event.path = "/offline" then
    if event.httpMethod = "POST" then tryRun (handleOffline now event st)
    else (none, st)
  else if stripStats event.path = "/current" then
    if event.httpMethod = "GET" then tryRun (getCurrentStats now st)
    else (none, st)
  else (some resp404, st)

/-- `exports.handler`: answer OPTIONS preflights immediately, otherwise run
the sweep gate and dispatch on path suffix and method. -/
def handler (now : Nat) (event : Event) (st : StatsState) :
    Option Response × StatsState :=
  if event.httpMethod = "OPTIONS" then (some respOptions, st)
  else dispatch now event (preState now st)

/-- The module-level state right after process start: empty session map,
empty view list, `lastCleanup` stamped with the load time. -/
def initState (t0 : Nat) : StatsState := ⟨[], [], t0⟩

/-- A `POST /pageview` request carrying an object body. -/
def pageviewEvent (sid pg : String) : Event :=
  ⟨"POST", "/.netlify/functions/stats/pageview", some (.jobj sid pg)⟩

/-- A `POST /heartbeat` request carrying an object body. -/
def heartbeatEvent (sid pg : String) : Event :=
  ⟨"POST", "/.netlify/functions/stats/heartbeat", some (.jobj sid pg)⟩

/-- A `POST /offline` request carrying an object body. -/
def offlineEvent (sid pg : String) : Event :=
  ⟨"POST", "/.netlify/functions/stats/offline", some (.jobj sid pg)⟩

/-- A `GET /current` request. -/
def currentEvent : Event :=
  ⟨"GET", "/.netlify/functions/stats/current", none⟩

/-- The method each switch case asks for, `none` for paths no case matches. -/
def routeMethodOf (path : String) : Option String :=
  if path = "/pageview" then some "POST"
  else if path = "/heartbeat" then some "POST"
  else if path = "/offline" then some "POST"
  else if path = "/current" then some "GET"
  else none

/-- Replay a sequence of page-view submissions (time, sessionId, page)
through the exported handler, starting from a fresh process. -/
def runPageViews (t0 : Nat) (subs : List (Nat × String × String)) : StatsState :=
  subs.foldl (fun st s => (handler s.1 (pageviewEvent s.2.1 s.2.2) st).2)
    (initState t0)

/-- Number of views of the given list grouping under page key `k`. -/
def countPage (k : String) (views : List PageView) : Nat :=
  (views.filter (fun v => pageKey v.page == k)).length

/-! ### Helper lemmas about the map operations -/

theorem mapSet_cons_ne (e : String × Session) (es : List (String × Session))
    (k : String) (v : Session) (h : (e.1 == k) = false) :
    mapSet (e :: es) k v = e :: mapSet es k v := by
  unfold mapSet mapHas
  simp only [List.any_cons, h, Bool.false_or, List.map_cons, h, if_neg]
  split
  · simp [h]
  · simp

theorem mapGet_cons_ne (e : String × Session) (es : List (String × Session))
    (k : String) (h : (e.1 == k) = false) :
    mapGet (e :: es) k = mapGet es k := by
  unfold mapGet
  rw [List.find?_cons_of_neg _ (by simp [h])]

theorem mapGet_mapSet_self (m : List (String × Session)) (k : String)
    (v : Session) : mapGet (mapSet m k v) k = some v := by
  induction m with
  | nil => simp [mapGet, mapSet, mapHas]
  | cons e es ih =>
    by_cases h : e.1 = k
    · have hb : (e.1 == k) = true := by simp [h]
      unfold mapSet mapHas
      simp only [List.any_cons, hb, Bool.true_or, if_pos, List.map_cons, hb,
        if_true]
      unfold mapGet
      rw [List.find?_cons_of_pos _ (by simp)]
      rfl
    · have hb : (e.1 == k) = false := by simp [h]
      rw [mapSet_cons_ne e es k v hb, mapGet_cons_ne e _ k hb]
      exact ih

theorem mapHas_eq_false_iff (m : List (String × Session)) (k : String) :
    mapHas m k = false ↔ ∀ e ∈ m, ¬ e.1 = k := by
  unfold mapHas
  simp

theorem mapHas_mapDelete (m : List (String × Session)) (k : String) :
    mapHas (mapDelete m k) k = false := by
  rw [mapHas_eq_false_iff]
  intro e he
  rcases (List.mem_filter.mp he) with ⟨_, hpe⟩
  simpa using hpe

theorem mapHas_filter_false (m : List (String × Session))
    (p : String × Session → Bool) (k : String) (h : mapHas m k = false) :
    mapHas (m.filter p) k = false := by
  rw [mapHas_eq_false_iff] at h ⊢
  intro e he
  exact h e (List.mem_filter.mp he).1

/-! ### Helper lemmas about the sweep gate and the dispatch shim -/

theorem cleanup_pageViews (now : Nat) (st : StatsState) :
    (cleanup now st).pageViews = st.pageViews := rfl

theorem preState_pageViews (now : Nat) (st : StatsState) :
    (preState now st).pageViews = st.pageViews := by
  unfold preState
  split <;> rfl

theorem mapHas_preState_false (now : Nat) (st : StatsState) (k : String)
    (h : mapHas st.sessions k = false) :
    mapHas (preState now st).sessions k = false := by
  unfold preState
  split
  · exact mapHas_filter_false _ _ _ h
  · exact h

theorem strip_pageview :
    stripStats "/.netlify/functions/stats/pageview" = "/pageview" := by decide

theorem strip_heartbeat :
    stripStats "/.netlify/functions/stats/heartbeat" = "/heartbeat" := by decide

theorem strip_offline :
    stripStats "/.netlify/functions/stats/offline" = "/offline" := by decide

theorem strip_current :
    stripStats "/.netlify/functions/stats/current" = "/current" := by decide

theorem handler_pageview_eq (now : Nat) (sid pg : String) (st : StatsState) :
    handler now (pageviewEvent sid pg) st =
      (some respPageView,
       { sessions := mapSet (preState now st).sessions sid
           { sessionId := sid,
             firstSeen := match mapGet (preState now st).sessions sid with
               | some s => s.firstSeen
               | none => now,
             lastHeartbeat := now,
             currentPage := pg },
         pageViews :=
           truncateViews ((preState now st).pageViews ++ [⟨some sid, some pg, now⟩]),
         lastCleanup := (preState now st).lastCleanup }) := by
  simp [handler, dispatch, pageviewEvent, handlePageView, tryRun, pvOfBody,
    strip_pageview]

theorem handler_heartbeat_eq (now : Nat) (sid pg : String) (st : StatsState) :
    handler now (heartbeatEvent sid pg) st =
      (some respHeartbeat,
       { preState now st with
         sessions := match mapGet (preState now st).sessions sid with
           | some s =>
             mapSet (preState now st).sessions sid { s with lastHeartbeat := now }
           | none => (preState now st).sessions }) := by
  simp [handler, dispatch, heartbeatEvent, handleHeartbeat, tryRun,
    strip_heartbeat]

theorem handler_offline_eq (now : Nat) (sid pg : String) (st : StatsState) :
    handler now (offlineEvent sid pg) st =
      (some respOffline,
       { preState now st with
         sessions := mapDelete (preState now st).sessions sid }) := by
  simp [handler, dispatch, offlineEvent, handleOffline, tryRun, strip_offline]

theorem handler_current_eq (now : Nat) (st : StatsState) :
    handler now currentEvent st =
      (some ⟨200, corsHeaders,
         statsBody (preState now st).sessions.length
           (todaysViews now (preState now st).pageViews).length
           (preState now st).pageViews.length
           (popularPages (todaysViews now (preState now st).pageViews)) now⟩,
       preState now st) := by
  simp [handler, dispatch, currentEvent, getCurrentStats, tryRun, strip_current]

/-! ### Concrete fixtures used by witnesses and counterexamples -/

/-- A GET request on the page-view route: known path, wrong method. -/
def evWrongMethod : Event := ⟨"GET", "/.netlify/functions/stats/pageview", none⟩

/-- A GET request on a path no switch case matches. -/
def evUnmatched : Event := ⟨"GET", "/.netlify/functions/stats/nope", none⟩

/-- A CORS preflight request. -/
def evPreflight : Event := ⟨"OPTIONS", "/.netlify/functions/stats/pageview", none⟩

/-- A sample session stored under key `a`. -/
def sampleSession : Session := ⟨"a", 100, 200, "/x"⟩

/-- A state holding exactly the sample session. -/
def sampleState : StatsState := ⟨[("a", sampleSession)], [], 0⟩

/-! ### C1 -/

/-- C1, counterexample: the claim says a GET on `/pageview` is answered with
the 404 `error: Not found` response like an unmatched path.  In the code the
matched `case` executes `break` on a method mismatch, control falls off the
end of the function and no response object at all is produced: at this
concrete input the handler yields `none`, not the 404 response. -/
theorem get_on_pageview_yields_no_404 :
    (handler 0 evWrongMethod (initState 0)).1 = none ∧
    (handler 0 evWrongMethod (initState 0)).1 ≠ some resp404 := by decide

/-- C1, amended: for every request whose path suffix matches a known route
but whose non-OPTIONS HTTP method is not the one that route handles, the
handler produces no response object at all (the switch `break` falls off the
end of the function, returning undefined); the 404 `error: Not found`
response is produced exactly for requests whose path suffix matches no
route. -/
theorem wrong_method_returns_no_response (now : Nat) (ev : Event)
    (st : StatsState) (m : String)
    (h1 : ev.httpMethod ≠ "OPTIONS")
    (h2 : routeMethodOf (stripStats ev.path) = some m)
    (h3 : ev.httpMethod ≠ m) :
    handler now ev st = (none, preState now st) ∧
    ∀ ev2, ev2.httpMethod ≠ "OPTIONS" →
      routeMethodOf (stripStats ev2.path) = none →
      handler now ev2 st = (some resp404, preState now st) := by
  constructor
  · unfold routeMethodOf at h2
    unfold handler
    rw [if_neg h1]
    unfold dispatch
    by_cases hp1 : stripStats ev.path = "/pageview"
    · rw [if_pos hp1] at h2
      rw [if_pos hp1]
      have hm : m = "POST" := (Option.some.inj h2).symm
      subst hm
      rw [if_neg h3]
    · rw [if_neg hp1] at h2
      rw [if_neg hp1]
      by_cases hp2 : stripStats ev.path = "/heartbeat"
      · rw [if_pos hp2] at h2
        rw [if_pos hp2]
        have hm : m = "POST" := (Option.some.inj h2).symm
        subst hm
        rw [if_neg h3]
      · rw [if_neg hp2] at h2
        rw [if_neg hp2]
        by_cases hp3 : stripStats ev.path = "/offline"
        · rw [if_pos hp3] at h2
          rw [if_pos hp3]
          have hm : m = "POST" := (Option.some.inj h2).symm
          subst hm
          rw [if_neg h3]
        · rw [if_neg hp3] at h2
          rw [if_neg hp3]
          by_cases hp4 : stripStats ev.path = "/current"
          · rw [if_pos hp4] at h2
            rw [if_pos hp4]
            have hm : m = "GET" := (Option.some.inj h2).symm
            subst hm
            rw [if_neg h3]
          · rw [if_neg hp4] at h2
            exact absurd h2 (by simp)
  · intro ev2 g1 g2
    unfold routeMethodOf at g2
    by_cases hq1 : stripStats ev2.path = "/pageview"
    · rw [if_pos hq1] at g2
      exact absurd g2 (by simp)
    · rw [if_neg hq1] at g2
      by_cases hq2 : stripStats ev2.path = "/heartbeat"
      · rw [if_pos hq2] at g2
        exact absurd g2 (by simp)
      · rw [if_neg hq2] at g2
        by_cases hq3 : stripStats ev2.path = "/offline"
        · rw [if_pos hq3] at g2
          exact absurd g2 (by simp)
        · rw [if_neg hq3] at g2
          by_cases hq4 : stripStats ev2.path = "/current"
          · rw [if_pos hq4] at g2
            exact absurd g2 (by simp)
          · simp [handler, dispatch, g1, hq1, hq2, hq3, hq4]

/-- C1, witness: the amended theorem applied to a GET on `/pageview` and a
GET on an unmatched path, in a fresh state. -/
theorem wrong_method_returns_no_response_w :
    handler 0 evWrongMethod (initState 0) = (none, preState 0 (initState 0)) ∧
    handler 0 evUnmatched (initState 0)
      = (some resp404, preState 0 (initState 0)) :=
  ⟨(wrong_method_returns_no_response 0 evWrongMethod (initState 0) "POST"
      (by decide) (by decide) (by decide)).1,
   (wrong_method_returns_no_response 0 evWrongMethod (initState 0) "POST"
      (by decide) (by decide) (by decide)).2 evUnmatched (by decide) (by decide)⟩

/-! ### C3 -/

/-- C3: for a sessionId present in the table, a page view for it keeps
`firstSeen` and stamps `lastHeartbeat` with the time of the call, and a
heartbeat for it keeps everything but `lastHeartbeat`, which is stamped with
the time of the call. -/
theorem firstSeen_stable_lastHeartbeat_updated (now : Nat) (st : StatsState)
    (sid pg pg2 : String) (s : Session)
    (h : mapGet st.sessions sid = some s) :
    (handlePageView now (pageviewEvent sid pg) st).1 = Except.ok respPageView ∧
    mapGet (handlePageView now (pageviewEvent sid pg) st).2.sessions sid
      = some { sessionId := sid, firstSeen := s.firstSeen,
               lastHeartbeat := now, currentPage := pg } ∧
    (handleHeartbeat now (heartbeatEvent sid pg2) st).1
      = Except.ok respHeartbeat ∧
    mapGet (handleHeartbeat now (heartbeatEvent sid pg2) st).2.sessions sid
      = some { s with lastHeartbeat := now } := by
  have hpv : handlePageView now (pageviewEvent sid pg) st
      = (Except.ok respPageView,
         { sessions := mapSet st.sessions sid
             { sessionId := sid, firstSeen := s.firstSeen,
               lastHeartbeat := now, currentPage := pg },
           pageViews := truncateViews (st.pageViews ++ [⟨some sid, some pg, now⟩]),
           lastCleanup := st.lastCleanup }) := by
    simp [handlePageView, pageviewEvent, pvOfBody, h]
  have hhb : handleHeartbeat now (heartbeatEvent sid pg2) st
      = (Except.ok respHeartbeat,
         { st with sessions := mapSet st.sessions sid
                        ({ s with lastHeartbeat := now }) }) := by
    simp [handleHeartbeat, heartbeatEvent, h]
  exact ⟨by rw [hpv], by rw [hpv]; exact mapGet_mapSet_self _ _ _,
         by rw [hhb], by rw [hhb]; exact mapGet_mapSet_self _ _ _⟩

/-- C3, witness: the theorem applied to the sample state at time 9. -/
theorem firstSeen_stable_lastHeartbeat_updated_w :
    (handlePageView 9 (pageviewEvent "a" "/p") sampleState).1
      = Except.ok respPageView ∧
    mapGet (handlePageView 9 (pageviewEvent "a" "/p") sampleState).2.sessions "a"
      = some { sessionId := "a", firstSeen := 100, lastHeartbeat := 9,
               currentPage := "/p" } ∧
    (handleHeartbeat 9 (heartbeatEvent "a" "/q") sampleState).1
      = Except.ok respHeartbeat ∧
    mapGet (handleHeartbeat 9 (heartbeatEvent "a" "/q") sampleState).2.sessions "a"
      = some { sessionId := "a", firstSeen := 100, lastHeartbeat := 9,
               currentPage := "/x" } :=
  firstSeen_stable_lastHeartbeat_updated 9 sampleState "a" "/p" "/q"
    sampleSession (by decide)

/-! ### C4 -/

/-- C4: a heartbeat with an object body updates `lastHeartbeat` of an
existing session to now and changes nothing else; for an unknown sessionId it
leaves the state entirely unchanged; in both cases the route answers 200 with
the `Heartbeat received` body. -/
theorem heartbeat_updates_existing_only (now : Nat) (st : StatsState)
    (sid pg : String) :
    (mapGet st.sessions sid = none →
      handleHeartbeat now (heartbeatEvent sid pg) st
        = (Except.ok respHeartbeat, st)) ∧
    (∀ s, mapGet st.sessions sid = some s →
      handleHeartbeat now (heartbeatEvent sid pg) st
        = (Except.ok respHeartbeat,
           { st with sessions := mapSet st.sessions sid
                          ({ s with lastHeartbeat := now }) })) ∧
    (handler now (heartbeatEvent sid pg) st).1 = some respHeartbeat := by
  refine ⟨fun h => ?_, fun s h => ?_, ?_⟩
  · simp [handleHeartbeat, heartbeatEvent, h]
  · simp [handleHeartbeat, heartbeatEvent, h]
  · rw [handler_heartbeat_eq]

/-- C4, witness: the theorem applied to an unknown sessionId in a fresh
state, and to the sample session. -/
theorem heartbeat_updates_existing_only_w :
    handleHeartbeat 3 (heartbeatEvent "ghost" "/p") (initState 0)
      = (Except.ok respHeartbeat, initState 0) ∧
    handleHeartbeat 9 (heartbeatEvent "a" "/p") sampleState
      = (Except.ok respHeartbeat,
         { sampleState with sessions := mapSet sampleState.sessions "a"
                                 ({ sampleSession with lastHeartbeat := 9 }) }) :=
  ⟨(heartbeat_updates_existing_only 3 (initState 0) "ghost" "/p").1 rfl,
   (heartbeat_updates_existing_only 9 sampleState "a" "/p").2.1 sampleSession
     (by decide)⟩

/-! ### C5 -/

/-- C5: a `POST /offline` answers 200 with the `User offline` body and
removes the sessionId from the table (a no-op when absent), and a
`GET /current` issued right after still finds the sessionId absent, its
`onlineUsers` being the size of a session table that does not contain it. -/
theorem offline_then_current_excludes (now1 now2 : Nat) (st : StatsState)
    (sid pg : String) :
    (handler now1 (offlineEvent sid pg) st).1 = some respOffline ∧
    mapHas (handler now1 (offlineEvent sid pg) st).2.sessions sid = false ∧
    mapHas (handler now2 currentEvent
        (handler now1 (offlineEvent sid pg) st).2).2.sessions sid = false ∧
    (handler now2 currentEvent (handler now1 (offlineEvent sid pg) st).2).1
      = some ⟨200, corsHeaders,
          statsBody
            (handler now2 currentEvent
              (handler now1 (offlineEvent sid pg) st).2).2.sessions.length
            (todaysViews now2 (handler now2 currentEvent
              (handler now1 (offlineEvent sid pg) st).2).2.pageViews).length
            (handler now2 currentEvent
              (handler now1 (offlineEvent sid pg) st).2).2.pageViews.length
            (popularPages (todaysViews now2 (handler now2 currentEvent
              (handler now1 (offlineEvent sid pg) st).2).2.pageViews))
            now2⟩ := by
  rw [handler_offline_eq, handler_current_eq]
  exact ⟨rfl, mapHas_mapDelete _ _,
    mapHas_preState_false _ _ _ (mapHas_mapDelete _ _), rfl⟩

/-! ### C6 -/

/-- C6: the sweep keeps exactly the sessions whose `lastHeartbeat` is not
older than five minutes before the sweep time, touches nothing else, stamps
`lastCleanup`, and on a non-OPTIONS request the handler runs the dispatch on
the swept state exactly when more than 60000 ms have elapsed since the last
sweep, while an OPTIONS request never sweeps. -/
theorem cleanup_sweep_exact (now : Nat) (st : StatsState) :
    (∀ k s, (k, s) ∈ (cleanup now st).sessions ↔
        ((k, s) ∈ st.sessions ∧ ¬ s.lastHeartbeat < now - 5 * 60 * 1000)) ∧
    (cleanup now st).pageViews = st.pageViews ∧
    (cleanup now st).lastCleanup = now ∧
    preState now st
      = (if now - st.lastCleanup > 60000 then cleanup now st else st) ∧
    (∀ ev, ev.httpMethod ≠ "OPTIONS" →
      handler now ev st = dispatch now ev (preState now st)) ∧
    (∀ ev, ev.httpMethod = "OPTIONS" → (handler now ev st).2 = st) := by
  refine ⟨?_, rfl, rfl, rfl, ?_, ?_⟩
  · intro k s
    simp [cleanup, List.mem_filter]
  · intro ev h
    simp [handler, h]
  · intro ev h
    simp [handler, h]

/-- C6, witness: the gating conjuncts applied to an unmatched GET and a
preflight in the sample state. -/
theorem cleanup_sweep_exact_w :
    handler 70001 evUnmatched sampleState
      = dispatch 70001 evUnmatched (preState 70001 sampleState) ∧
    (handler 70001 evPreflight sampleState).2 = sampleState :=
  ⟨(cleanup_sweep_exact 70001 sampleState).2.2.2.2.1 evUnmatched (by decide),
   (cleanup_sweep_exact 70001 sampleState).2.2.2.2.2 evPreflight rfl⟩

/-! ### C9 helper lemmas -/

theorem handlePageView_ok_headers {now : Nat} {ev : Event} {st : StatsState}
    {r : Response} {st2 : StatsState}
    (h : handlePageView now ev st = (Except.ok r, st2)) :
    r.headers = corsHeaders := by
  unfold handlePageView at h
  rcases hb : ev.body with _ | data
  · rw [hb] at h
    simp at h
  · rw [hb] at h
    cases data with
    | jnull => simp at h
    | jobj sid pg =>
      injection h with h1 h2
      injection h1 with h1
      rw [← h1]
      rfl

theorem handleHeartbeat_ok_headers {now : Nat} {ev : Event} {st : StatsState}
    {r : Response} {st2 : StatsState}
    (h : handleHeartbeat now ev st = (Except.ok r, st2)) :
    r.headers = corsHeaders := by
  unfold handleHeartbeat at h
  rcases hb : ev.body with _ | data
  · rw [hb] at h
    simp at h
  · rw [hb] at h
    cases data with
    | jnull => simp at h
    | jobj sid pg =>
      injection h with h1 h2
      injection h1 with h1
      rw [← h1]
      rfl

theorem handleOffline_ok_headers {now : Nat} {ev : Event} {st : StatsState}
    {r : Response} {st2 : StatsState}
    (h : handleOffline now ev st = (Except.ok r, st2)) :
    r.headers = corsHeaders := by
  unfold handleOffline at h
  rcases hb : ev.body with _ | data
  · rw [hb] at h
    simp at h
  · rw [hb] at h
    cases data with
    | jnull => simp at h
    | jobj sid pg =>
      injection h with h1 h2
      injection h1 with h1
      rw [← h1]
      rfl

theorem getCurrentStats_ok_headers {now : Nat} {st : StatsState}
    {r : Response} {st2 : StatsState}
    (h : getCurrentStats now st = (Except.ok r, st2)) :
    r.headers = corsHeaders := by
  simp only [getCurrentStats] at h
  injection h with h1 h2
  injection h1 with h1
  rw [← h1]

theorem tryRun_headers {x : Except Unit Response × StatsState} {r : Response}
    {s2 : StatsState}
    (hok : ∀ rr s3, x = (Except.ok rr, s3) → rr.headers = corsHeaders)
    (h : tryRun x = (some r, s2)) : r.headers = corsHeaders := by
  rcases x with ⟨res, st3⟩
  cases res with
  | ok rr =>
    have hh := hok rr st3 rfl
    unfold tryRun at h
    injection h with h1 h2
    injection h1 with h1
    rwa [← h1]
  | error e =>
    unfold tryRun at h
    injection h with h1 h2
    injection h1 with h1
    rw [← h1]
    rfl

/-! ### C9 -/

/-- C9: an OPTIONS request short-circuits to status 200 with an empty body,
and every response the handler ever produces (including the 404 and the 500)
carries exactly the four CORS and content-type headers. -/
theorem options_shortcircuit_and_cors (now : Nat) (ev : Event)
    (st : StatsState) :
    (ev.httpMethod = "OPTIONS" → handler now ev st = (some respOptions, st)) ∧
    (∀ r s2, handler now ev st = (some r, s2) → r.headers = corsHeaders) := by
  refine ⟨fun h => by simp [handler, h], fun r s2 h => ?_⟩
  unfold handler at h
  split at h
  · injection h with h1 h2
    injection h1 with h1
    rw [← h1]
    rfl
  · unfold dispatch at h
    split at h
    · split at h
      · exact tryRun_headers (fun rr s3 hh => handlePageView_ok_headers hh) h
      · injection h with h1 h2
        exact Option.noConfusion h1
    · split at h
      · split at h
        · exact tryRun_headers (fun rr s3 hh => handleHeartbeat_ok_headers hh) h
        · injection h with h1 h2
          exact Option.noConfusion h1
      · split at h
        · split at h
          · exact tryRun_headers (fun rr s3 hh => handleOffline_ok_headers hh) h
          · injection h with h1 h2
            exact Option.noConfusion h1
        · split at h
          · split at h
            · exact tryRun_headers (fun rr s3 hh => getCurrentStats_ok_headers hh) h
            · injection h with h1 h2
              exact Option.noConfusion h1
          · injection h with h1 h2
            injection h1 with h1
            rw [← h1]
            rfl

/-- C9, witness: the theorem applied to a preflight and to the 404 response
of an unmatched path. -/
theorem options_shortcircuit_and_cors_w :
    handler 0 evPreflight (initState 0) = (some respOptions, initState 0) ∧
    resp404.headers = corsHeaders :=
  ⟨(options_shortcircuit_and_cors 0 evPreflight (initState 0)).1 rfl,
   (options_shortcircuit_and_cors 0 evUnmatched (initState 0)).2 resp404
     (initState 0) (by decide)⟩

/-! ### C10 -/

/-- C10: the summary computation never changes the state, so the only state
change a `GET /current` request can cause is the sweep the dispatch shim runs
before it. -/
theorem current_is_readonly (now : Nat) (st : StatsState) :
    (getCurrentStats now st).2 = st ∧
    preState now st
      = (if now - st.lastCleanup > 60000 then cleanup now st else st) ∧
    ∀ ev, ev.httpMethod = "GET" → stripStats ev.path = "/current" →
      (handler now ev st).2 = preState now st := by
  refine ⟨rfl, rfl, fun ev h1 h2 => ?_⟩
  have hno : ev.httpMethod ≠ "OPTIONS" := by
    rw [h1]
    decide
  simp [handler, dispatch, hno, h1, h2, getCurrentStats, tryRun]

/-- C10, witness: the theorem applied to the canonical current request. -/
theorem current_is_readonly_w :
    (handler 5 currentEvent sampleState).2 = preState 5 sampleState :=
  (current_is_readonly 5 sampleState).2.2 currentEvent rfl (by decide)

/-! ### C2 helper lemmas -/

/-- The page view stored for one submission (time, sessionId, page). -/
def toPV (s : Nat × String × String) : PageView :=
  pvOfBody (.jobj s.2.1 s.2.2) s.1

theorem truncateViews_length (l : List PageView) :
    (truncateViews l).length = min l.length 1000 := by
  unfold truncateViews
  split <;> rename_i h
  · rw [List.length_drop]
    omega
  · omega

theorem handler_pageview_views (now : Nat) (sid pg : String) (st : StatsState) :
    (handler now (pageviewEvent sid pg) st).2.pageViews
      = truncateViews (st.pageViews ++ [⟨some sid, some pg, now⟩]) := by
  rw [handler_pageview_eq]
  simp [preState_pageViews]

theorem runPageViews_aux (subs : List (Nat × String × String)) :
    ∀ st : StatsState, st.pageViews.length ≤ 1000 →
    (subs.foldl (fun st s => (handler s.1 (pageviewEvent s.2.1 s.2.2) st).2)
        st).pageViews
      = (st.pageViews ++ subs.map toPV).drop
          (st.pageViews.length + subs.length - 1000) := by
  induction subs with
  | nil =>
    intro st h
    simp [Nat.sub_eq_zero_of_le h]
  | cons a rest ih =>
    intro st h
    rw [List.foldl_cons]
    have hstep : (handler a.1 (pageviewEvent a.2.1 a.2.2) st).2.pageViews
        = truncateViews (st.pageViews ++ [toPV a]) :=
      handler_pageview_views a.1 a.2.1 a.2.2 st
    have hlen :
        ((handler a.1 (pageviewEvent a.2.1 a.2.2) st).2).pageViews.length
          ≤ 1000 := by
      rw [hstep, truncateViews_length]
      omega
    rw [ih _ hlen, hstep]
    rcases Nat.lt_or_ge st.pageViews.length 1000 with hc | hc
    · have ht : truncateViews (st.pageViews ++ [toPV a])
          = st.pageViews ++ [toPV a] := by
        unfold truncateViews
        rw [if_neg (by
          simp only [List.length_append, List.length_singleton]
          omega)]
      rw [ht, List.map_cons, List.append_assoc, List.singleton_append]
      have e : (st.pageViews ++ [toPV a]).length + rest.length - 1000
          = st.pageViews.length + (a :: rest).length - 1000 := by
        simp only [List.length_append, List.length_singleton, List.length_cons,
          List.length_nil]
        omega
      rw [e]
    · have hv : st.pageViews.length = 1000 := Nat.le_antisymm h hc
      have ht : truncateViews (st.pageViews ++ [toPV a])
          = (st.pageViews ++ [toPV a]).drop 1 := by
        unfold truncateViews
        rw [if_pos (by
          simp only [List.length_append, List.length_singleton]
          omega)]
        rw [show (st.pageViews ++ [toPV a]).length - 1000 = 1 by
          simp only [List.length_append, List.length_singleton, hv]]
      rw [ht]
      have hlen2 : ((st.pageViews ++ [toPV a]).drop 1).length = 1000 := by
        simp only [List.length_drop, List.length_append, List.length_singleton,
          hv]
      rw [hlen2]
      rw [← List.drop_append_of_le_length
        (show (1 : Nat) ≤ (st.pageViews ++ [toPV a]).length by
          simp only [List.length_append, List.length_singleton]
          omega)]
      rw [List.drop_drop]
      rw [List.map_cons,
        show st.pageViews ++ toPV a :: List.map toPV rest
            = (st.pageViews ++ [toPV a]) ++ List.map toPV rest from by simp]
      have e : 1 + (1000 + rest.length - 1000)
          = st.pageViews.length + (a :: rest).length - 1000 := by
        simp only [List.length_cons, hv]
        omega
      rw [e]

/-! ### C2 -/

/-- C2: replaying any sequence of page-view submissions from a fresh process,
the stored view list is exactly the suffix of the submitted views of length
min(total submitted, 1000): the most recent submissions in arrival order,
older entries beyond 1000 dropped.  Since this holds for every sequence, it
holds after each individual submission of a longer sequence. -/
theorem pageview_buffer_keeps_last_1000 (t0 : Nat)
    (subs : List (Nat × String × String)) :
    (runPageViews t0 subs).pageViews
      = (subs.map toPV).drop (subs.length - 1000) ∧
    (runPageViews t0 subs).pageViews.length = min subs.length 1000 := by
  have h := runPageViews_aux subs (initState t0) (by simp [initState])
  have h1 : (runPageViews t0 subs).pageViews
      = (subs.map toPV).drop (subs.length - 1000) := by
    unfold runPageViews
    rw [h]
    simp [initState]
  refine ⟨h1, ?_⟩
  rw [h1, List.length_drop, List.length_map]
  omega

/-! ### C7 helper lemmas: counting under clean page keys -/

/-- An accumulator state reachable from views whose page keys avoid the
`Object.prototype` member names: every key is such a plain key, every stored
count is a positive number, and keys are unique. -/
def cleanAcc (acc : List (String × JsVal)) : Prop :=
  (∀ e ∈ acc, protoKey e.1 = false) ∧
  (∀ e ∈ acc, ∃ n, e.2 = JsVal.num n ∧ 0 < n) ∧
  (acc.map Prod.fst).Nodup

/-- The numeric count recorded under key `k` in an accumulator. -/
def cntOf (acc : List (String × JsVal)) (k : String) : Nat :=
  match acc.find? (fun e => e.1 == k) with
  | some e => numOfJs e.2
  | none => 0

theorem cntOf_cons_ne (e : String × JsVal) (es : List (String × JsVal))
    (k : String) (h : (e.1 == k) = false) :
    cntOf (e :: es) k = cntOf es k := by
  unfold cntOf
  rw [List.find?_cons_of_neg _ (by simp [h])]

theorem protoKey_src_none (k : String) (h : protoKey k = false) :
    protoFunctionSrc k = none := by
  unfold protoKey at h
  rcases Bool.or_eq_false_iff.mp h with ⟨h1, -⟩
  cases hpf : protoFunctionSrc k with
  | none => rfl
  | some s =>
    rw [hpf] at h1
    simp at h1

theorem protoKey_ne_proto (k : String) (h : protoKey k = false) :
    ¬ k = "__proto__" := by
  unfold protoKey at h
  rcases Bool.or_eq_false_iff.mp h with ⟨-, h2⟩
  simpa using h2

theorem bumpRead_clean (acc : List (String × JsVal)) (k : String)
    (hv : ∀ e ∈ acc, ∃ n, e.2 = JsVal.num n ∧ 0 < n)
    (hk : protoKey k = false) :
    bumpRead acc k = JsVal.num (cntOf acc k + 1) := by
  unfold bumpRead cntOf
  rcases hf : acc.find? (fun e => e.1 == k) with - | ⟨k2, v⟩
  · rw [hf, protoKey_src_none k hk, if_neg (protoKey_ne_proto k hk)]
  · have hm := List.mem_of_find?_eq_some hf
    rcases hv _ hm with ⟨n, hn, -⟩
    cases v with
    | num n2 =>
      rw [hf]
      rfl
    | str s => exact absurd hn (by simp)

theorem cntOf_map_write_self (acc : List (String × JsVal)) (k : String)
    (v : JsVal) (hany : acc.any (fun e => e.1 == k) = true) :
    cntOf (acc.map (fun e => if e.1 == k then (e.1, v) else e)) k
      = numOfJs v := by
  induction acc with
  | nil => simp at hany
  | cons e es ih =>
    rw [List.map_cons]
    by_cases he : e.1 = k
    · rw [if_pos (by simp [he])]
      unfold cntOf
      rw [List.find?_cons_of_pos _ (by simp [he])]
    · rw [if_neg (by simp [he])]
      rw [cntOf_cons_ne e _ k (by simp [he])]
      rw [List.any_cons] at hany
      exact ih (by simpa [he] using hany)

theorem cntOf_append_write_self (acc : List (String × JsVal)) (k : String)
    (v : JsVal) (hany : acc.any (fun e => e.1 == k) = false) :
    cntOf (acc ++ [(k, v)]) k = numOfJs v := by
  induction acc with
  | nil =>
    unfold cntOf
    rw [List.nil_append, List.find?_cons_of_pos _ (by simp)]
  | cons e es ih =>
    rw [List.cons_append]
    rw [List.any_cons, Bool.or_eq_false_iff] at hany
    rw [cntOf_cons_ne e _ k hany.1]
    exact ih hany.2

theorem cntOf_bumpWrite_self (acc : List (String × JsVal)) (k : String)
    (v : JsVal) (hkp : ¬ k = "__proto__") :
    cntOf (bumpWrite acc k v) k = numOfJs v := by
  unfold bumpWrite
  by_cases hany : acc.any (fun e => e.1 == k) = true
  · rw [if_pos hany]
    exact cntOf_map_write_self acc k v hany
  · rw [if_neg hany, if_neg hkp]
    exact cntOf_append_write_self acc k v (Bool.eq_false_iff.mpr hany)

theorem cntOf_bumpPage_self (acc : List (String × JsVal)) (k : String)
    (hv : ∀ e ∈ acc, ∃ n, e.2 = JsVal.num n ∧ 0 < n)
    (hk : protoKey k = false) :
    cntOf (bumpPage acc k) k = cntOf acc k + 1 := by
  unfold bumpPage
  rw [bumpRead_clean acc k hv hk, cntOf_bumpWrite_self acc k _ (protoKey_ne_proto k hk)]
  rfl

theorem cntOf_map_write_ne (acc : List (String × JsVal)) (k k' : String)
    (v : JsVal) (h : k' ≠ k) :
    cntOf (acc.map (fun e => if e.1 == k then (e.1, v) else e)) k'
      = cntOf acc k' := by
  induction acc with
  | nil => rfl
  | cons e es ih =>
    rw [List.map_cons]
    by_cases hek : e.1 = k
    · have hne : (e.1 == k') = false := by
        simp only [beq_eq_false_iff_ne, ne_eq, hek]
        exact fun hh => h hh.symm
      rw [if_pos (by simp [hek])]
      rw [cntOf_cons_ne (e.1, v) _ k' hne, cntOf_cons_ne e _ k' hne]
      exact ih
    · rw [if_neg (by simp [hek])]
      by_cases he : e.1 = k'
      · unfold cntOf
        rw [List.find?_cons_of_pos _ (by simp [he]),
          List.find?_cons_of_pos _ (by simp [he])]
      · rw [cntOf_cons_ne e _ k' (by simp [he]),
          cntOf_cons_ne e _ k' (by simp [he])]
        exact ih

theorem cntOf_append_write_ne (acc : List (String × JsVal)) (k k' : String)
    (v : JsVal) (h : k' ≠ k) :
    cntOf (acc ++ [(k, v)]) k' = cntOf acc k' := by
  induction acc with
  | nil =>
    unfold cntOf
    rw [List.nil_append,
      List.find?_cons_of_neg _ (by simp; exact fun hh => h hh.symm)]
  | cons e es ih =>
    rw [List.cons_append]
    by_cases he : e.1 = k'
    · unfold cntOf
      rw [List.find?_cons_of_pos _ (by simp [he]),
        List.find?_cons_of_pos _ (by simp [he])]
    · rw [cntOf_cons_ne e _ k' (by simp [he]),
        cntOf_cons_ne e _ k' (by simp [he])]
      exact ih

theorem cntOf_bumpPage_ne (acc : List (String × JsVal)) (k k' : String)
    (h : k' ≠ k) : cntOf (bumpPage acc k) k' = cntOf acc k' := by
  unfold bumpPage bumpWrite
  split
  · exact cntOf_map_write_ne acc k k' _ h
  · split
    · rfl
    · exact cntOf_append_write_ne acc k k' _ h

/-! ### C7 helper lemmas: the clean invariant is preserved -/

theorem cleanAcc_nil : cleanAcc [] := by
  refine ⟨?_, ?_, ?_⟩ <;> simp [cleanAcc]

theorem cleanAcc_bumpPage (acc : List (String × JsVal)) (k : String)
    (hC : cleanAcc acc) (hk : protoKey k = false) :
    cleanAcc (bumpPage acc k) := by
  rcases hC with ⟨hKeys, hVals, hNd⟩
  unfold bumpPage
  rw [bumpRead_clean acc k hVals hk]
  unfold bumpWrite
  by_cases hany : acc.any (fun e => e.1 == k) = true
  · rw [if_pos hany]
    refine ⟨?_, ?_, ?_⟩
    · intro e he
      rcases List.mem_map.mp he with ⟨e2, he2, rfl⟩
      split
      · exact hKeys e2 he2
      · exact hKeys e2 he2
    · intro e he
      rcases List.mem_map.mp he with ⟨e2, he2, rfl⟩
      split
      · exact ⟨cntOf acc k + 1, rfl, by omega⟩
      · exact hVals e2 he2
    · have hkeys : (acc.map (fun e =>
          if e.1 == k then (e.1, JsVal.num (cntOf acc k + 1)) else e)).map
            Prod.fst = acc.map Prod.fst := by
        rw [List.map_map]
        congr 1
        funext e
        simp only [Function.comp_apply]
        split <;> rfl
      rw [hkeys]
      exact hNd
  · rw [if_neg hany, if_neg (protoKey_ne_proto k hk)]
    refine ⟨?_, ?_, ?_⟩
    · intro e he
      rcases List.mem_append.mp he with he | he
      · exact hKeys e he
      · simp only [List.mem_singleton] at he
        subst he
        exact hk
    · intro e he
      rcases List.mem_append.mp he with he | he
      · exact hVals e he
      · simp only [List.mem_singleton] at he
        subst he
        exact ⟨cntOf acc k + 1, rfl, by omega⟩
    · rw [List.map_append]
      have hkn : k ∉ acc.map Prod.fst := by
        intro hmem
        rcases List.mem_map.mp hmem with ⟨e, he, hek⟩
        exact hany (List.any_eq_true.mpr ⟨e, he, by simp [hek]⟩)
      simp only [List.map_cons, List.map_nil]
      rw [List.nodup_append]
      exact ⟨hNd, List.nodup_singleton k, by simpa using hkn⟩

theorem cleanAcc_foldl (vs : List PageView) :
    ∀ acc, cleanAcc acc → (∀ v ∈ vs, protoKey (pageKey v.page) = false) →
      cleanAcc (vs.foldl (fun a v => bumpPage a (pageKey v.page)) acc) := by
  induction vs with
  | nil => exact fun acc h _ => h
  | cons v vs ih =>
    intro acc h hcl
    rw [List.foldl_cons]
    exact ih _ (cleanAcc_bumpPage acc _ h (hcl v (List.mem_cons_self v vs)))
      (fun w hw => hcl w (List.mem_cons_of_mem v hw))

theorem cleanAcc_pageStats (vs : List PageView)
    (h : ∀ v ∈ vs, protoKey (pageKey v.page) = false) :
    cleanAcc (pageStats vs) :=
  cleanAcc_foldl vs [] cleanAcc_nil h

theorem cntOf_foldl_bump (k : String) (vs : List PageView) :
    ∀ acc, cleanAcc acc → (∀ v ∈ vs, protoKey (pageKey v.page) = false) →
      cntOf (vs.foldl (fun a v => bumpPage a (pageKey v.page)) acc) k
        = cntOf acc k + countPage k vs := by
  induction vs with
  | nil =>
    intro acc _ _
    simp [countPage]
  | cons v vs ih =>
    intro acc hC hcl
    rw [List.foldl_cons]
    rw [ih _ (cleanAcc_bumpPage acc _ hC (hcl v (List.mem_cons_self v vs)))
      (fun w hw => hcl w (List.mem_cons_of_mem v hw))]
    by_cases hv : pageKey v.page = k
    · rw [hv, cntOf_bumpPage_self acc k hC.2.1
        (hv ▸ hcl v (List.mem_cons_self v vs))]
      have hcp : countPage k (v :: vs) = countPage k vs + 1 := by
        unfold countPage
        rw [List.filter_cons_of_pos (by simp [hv])]
        simp
      omega
    · rw [cntOf_bumpPage_ne acc (pageKey v.page) k (fun hh => hv hh.symm)]
      have hcp : countPage k (v :: vs) = countPage k vs := by
        unfold countPage
        rw [List.filter_cons_of_neg (by simp [hv])]
      omega

theorem cntOf_pageStats (k : String) (vs : List PageView)
    (h : ∀ v ∈ vs, protoKey (pageKey v.page) = false) :
    cntOf (pageStats vs) k = countPage k vs := by
  unfold pageStats
  rw [cntOf_foldl_bump k vs [] cleanAcc_nil h]
  simp [cntOf]

theorem find?_eq_of_mem_nodup (acc : List (String × JsVal)) (k : String)
    (c : JsVal) (hnd : (acc.map Prod.fst).Nodup) (hm : (k, c) ∈ acc) :
    acc.find? (fun e => e.1 == k) = some (k, c) := by
  induction acc with
  | nil => cases hm
  | cons e es ih =>
    rw [List.map_cons, List.nodup_cons] at hnd
    rcases List.mem_cons.mp hm with he | he
    · rw [← he]
      rw [List.find?_cons_of_pos _ (by simp)]
    · have hk : k ∈ es.map Prod.fst := List.mem_map.mpr ⟨(k, c), he, rfl⟩
      have hne : ¬ e.1 = k := fun hh => hnd.1 (hh ▸ hk)
      rw [List.find?_cons_of_neg _ (by simp [hne])]
      exact ih hnd.2 he

theorem mem_pageStats_count (vs : List PageView) (k : String) (c : JsVal)
    (hcl : ∀ v ∈ vs, protoKey (pageKey v.page) = false)
    (h : (k, c) ∈ pageStats vs) :
    ∃ n, c = JsVal.num n ∧ 0 < n ∧ n = countPage k vs := by
  have hC := cleanAcc_pageStats vs hcl
  rcases hC.2.1 (k, c) h with ⟨n, hn, hpos⟩
  have hf := find?_eq_of_mem_nodup _ _ _ hC.2.2 h
  have hn2 : c = JsVal.num n := hn
  have hcnt : cntOf (pageStats vs) k = n := by
    unfold cntOf
    rw [hf]
    show numOfJs c = n
    rw [hn2]
    rfl
  exact ⟨n, hn, hpos, by rw [← hcnt, cntOf_pageStats k vs hcl]⟩

/-! ### C7 helper lemmas: sorting under clean page keys -/

/-- The numeric descending may-precede relation; globally transitive and
total, and it agrees with `jsSortLe` on entries whose counts are numbers. -/
def numLe (a b : String × JsVal) : Bool :=
  decide (numOfJs b.2 ≤ numOfJs a.2)

theorem mergeSort_js_eq_num (l : List (String × JsVal))
    (h : ∀ e ∈ l, ∃ n, e.2 = JsVal.num n ∧ 0 < n) :
    l.mergeSort jsSortLe = l.mergeSort numLe := by
  have hmap := @List.map_mergeSort (String × JsVal) (String × JsVal)
    jsSortLe numLe id l (by
      intro a ha b hb
      rcases h a ha with ⟨na, hna, -⟩
      rcases h b hb with ⟨nb, hnb, -⟩
      unfold jsSortLe numLe
      simp only [id_eq, hna, hnb, numOfJs])
  simpa using hmap

theorem popularPages_len (views : List PageView) :
    (popularPages views).length ≤ 10 := by
  unfold popularPages
  exact List.length_take_le _ _

theorem popularPages_sorted_clean (views : List PageView)
    (hcl : ∀ v ∈ views, protoKey (pageKey v.page) = false) :
    List.Pairwise (fun a b => numOfJs b.2 ≤ numOfJs a.2)
      (popularPages views) := by
  unfold popularPages
  apply List.Pairwise.sublist (List.take_sublist _ _)
  rw [mergeSort_js_eq_num _ (cleanAcc_pageStats views hcl).2.1]
  have hs := @List.sorted_mergeSort (String × JsVal) numLe
    (fun a b c h1 h2 => by
      simp only [numLe, decide_eq_true_eq] at h1 h2 ⊢
      omega)
    (fun a b => by
      simp only [numLe, Bool.or_eq_true, decide_eq_true_eq]
      omega)
    (pageStats views)
  exact hs.imp (fun h => by simpa [numLe] using h)

theorem mem_popularPages (views : List PageView) (k : String) (c : JsVal)
    (h : (k, c) ∈ popularPages views) : (k, c) ∈ pageStats views := by
  unfold popularPages at h
  exact List.mem_mergeSort.mp (List.mem_of_mem_take h)

/-! ### C7 -/

/-- A state holding one today page view whose page is named `__proto__`. -/
def stProtoPage : StatsState := ⟨[], [⟨some "a", some "__proto__", 7⟩], 0⟩

/-- A state holding one today page view whose page is named `toString`. -/
def stToStringPage : StatsState := ⟨[], [⟨some "a", some "toString", 7⟩], 0⟩

/-- C7, counterexample: the claim says popularPages always groups the day
views by page with counts sorted descending.  The plain-object accumulator
breaks it on page names colliding with `Object.prototype`: a view of a page
named `__proto__` is silently dropped (the inherited setter ignores the
assignment), so its group is missing although its occurrence count is 1; and
a view of a page named `toString` is listed with the string concatenation of
the inherited method source and `1` as its count, which is not the
occurrence count 1. -/
theorem proto_pages_break_popular_pages :
    (popularPages (todaysViews 7 stProtoPage.pageViews) = [] ∧
      countPage "__proto__" (todaysViews 7 stProtoPage.pageViews) = 1) ∧
    (popularPages (todaysViews 7 stToStringPage.pageViews)
        = [("toString",
            JsVal.str "function toString() \x7b [native code] \x7d1")] ∧
      JsVal.str "function toString() \x7b [native code] \x7d1"
        ≠ JsVal.num (countPage "toString"
            (todaysViews 7 stToStringPage.pageViews))) := by
  refine ⟨⟨?_, by decide⟩, ⟨?_, by decide⟩⟩
  · unfold popularPages
    rw [show pageStats (todaysViews 7 stProtoPage.pageViews) = [] from by decide]
    rw [List.mergeSort_nil]
    rfl
  · unfold popularPages
    rw [show pageStats (todaysViews 7 stToStringPage.pageViews)
          = [("toString",
              JsVal.str "function toString() \x7b [native code] \x7d1")] from
        by decide]
    rw [List.mergeSort_singleton]
    rfl

/-- C7, amended: provided no page key of the day views is an
`Object.prototype` member name, the summary response embeds the
popular-pages list, which groups the day views by page key, has at most ten
entries sorted by numeric count in descending order, and every listed count
is the number of the day views of that page.  (Without that proviso a page
named `__proto__` is dropped and a page named after an inherited method gets
a concatenated string count, as the counterexample shows.) -/
theorem popular_pages_top10_sorted (now : Nat) (st : StatsState)
    (hclean : ∀ v ∈ todaysViews now st.pageViews,
      protoKey (pageKey v.page) = false) :
    getCurrentStats now st
      = (Except.ok ⟨200, corsHeaders,
          statsBody st.sessions.length (todaysViews now st.pageViews).length
            st.pageViews.length (popularPages (todaysViews now st.pageViews))
            now⟩, st) ∧
    (popularPages (todaysViews now st.pageViews)).length ≤ 10 ∧
    List.Pairwise (fun a b => numOfJs b.2 ≤ numOfJs a.2)
      (popularPages (todaysViews now st.pageViews)) ∧
    ∀ k c, (k, c) ∈ popularPages (todaysViews now st.pageViews) →
      ∃ n, c = JsVal.num n ∧ 0 < n ∧
        n = countPage k (todaysViews now st.pageViews) :=
  ⟨rfl, popularPages_len _, popularPages_sorted_clean _ hclean,
   fun k c h => mem_pageStats_count _ k c hclean (mem_popularPages _ _ _ h)⟩

/-- A one-view state used by the C7 witness. -/
def stOneView : StatsState := ⟨[], [⟨some "a", some "/home", 7⟩], 0⟩

/-- C7, witness: the amended theorem applied to a state holding a single view
of `/home` today, a page key that is no prototype member. -/
theorem popular_pages_top10_sorted_w :
    (popularPages (todaysViews 7 stOneView.pageViews)).length ≤ 10 ∧
    ∃ n, JsVal.num 1 = JsVal.num n ∧ 0 < n ∧
      n = countPage "/home" (todaysViews 7 stOneView.pageViews) :=
  ⟨(popular_pages_top10_sorted 7 stOneView (by decide)).2.1,
   (popular_pages_top10_sorted 7 stOneView (by decide)).2.2.2 "/home"
     (JsVal.num 1) (by
      show ("/home", JsVal.num 1) ∈ popularPages (todaysViews 7 stOneView.pageViews)
      unfold popularPages
      rw [show pageStats (todaysViews 7 stOneView.pageViews)
            = [("/home", JsVal.num 1)] from by decide]
      rw [List.mergeSort_singleton]
      decide)⟩


/-! ### C8 -/

/-- A `POST /pageview` request whose body is the JSON value `null`: it
parses, so the page view is pushed, and only then does reading
`data.sessionId` throw. -/
def evNullBody : Event :=
  ⟨"POST", "/.netlify/functions/stats/pageview", some .jnull⟩

/-- C8, counterexample: the claim says every throwing request leaves the
page-view list unchanged.  A `POST /pageview` whose body parses to JSON
`null` is answered with the 500 response, yet the page-view list has gained a
record: `handlePageView` pushes the spread record before the throwing
property access. -/
theorem null_body_pageview_mutates_views :
    (handler 5 evNullBody (initState 0)).1 = some resp500 ∧
    (handler 5 evNullBody (initState 0)).2.pageViews
      ≠ (initState 0).pageViews := by
  decide

/-- C8, amended: every request on which handling throws is answered with
status 500 and body `error: Internal server error`, and the session table is
never changed by the throwing handler; the page-view list is also unchanged,
except that a `POST /pageview` whose body parses to JSON `null` has already
appended its record (carrying only the server timestamp) and truncated the
list before the throw. -/
theorem error_requests_500_sessions_intact (now : Nat) (ev : Event)
    (st : StatsState) (h : (handler now ev st).1 = some resp500) :
    (handler now ev st).2.sessions = (preState now st).sessions ∧
    ((handler now ev st).2.pageViews = (preState now st).pageViews ∨
      (stripStats ev.path = "/pageview" ∧ ev.httpMethod = "POST" ∧
        ev.body = some BodyVal.jnull ∧
        (handler now ev st).2.pageViews
          = truncateViews ((preState now st).pageViews ++ [⟨none, none, now⟩]))) := by
  by_cases hopt : ev.httpMethod = "OPTIONS"
  · exfalso
    unfold handler at h
    rw [if_pos hopt] at h
    exact absurd (Option.some.inj h) (by decide)
  · unfold handler at h ⊢
    rw [if_neg hopt] at h ⊢
    unfold dispatch at h ⊢
    by_cases hp1 : stripStats ev.path = "/pageview"
    · rw [if_pos hp1] at h ⊢
      by_cases hm : ev.httpMethod = "POST"
      · rw [if_pos hm] at h ⊢
        rcases hb : ev.body with _ | data
        · refine ⟨?_, Or.inl ?_⟩ <;> simp [handlePageView, hb, tryRun]
        · cases data with
          | jnull =>
            refine ⟨?_, Or.inr ⟨hp1, hm, rfl, ?_⟩⟩ <;>
              simp [handlePageView, hb, tryRun, pvOfBody]
          | jobj sid pg =>
            exfalso
            simp only [handlePageView, hb, pvOfBody, tryRun] at h
            exact absurd (Option.some.inj h) (by decide)
      · rw [if_neg hm] at h
        exact absurd h (by simp)
    · rw [if_neg hp1] at h ⊢
      by_cases hp2 : stripStats ev.path = "/heartbeat"
      · rw [if_pos hp2] at h ⊢
        by_cases hm : ev.httpMethod = "POST"
        · rw [if_pos hm] at h ⊢
          rcases hb : ev.body with _ | data
          · refine ⟨?_, Or.inl ?_⟩ <;> simp [handleHeartbeat, hb, tryRun]
          · cases data with
            | jnull =>
              refine ⟨?_, Or.inl ?_⟩ <;> simp [handleHeartbeat, hb, tryRun]
            | jobj sid pg =>
              exfalso
              simp only [handleHeartbeat, hb, tryRun] at h
              exact absurd (Option.some.inj h) (by decide)
        · rw [if_neg hm] at h
          exact absurd h (by simp)
      · rw [if_neg hp2] at h ⊢
        by_cases hp3 : stripStats ev.path = "/offline"
        · rw [if_pos hp3] at h ⊢
          by_cases hm : ev.httpMethod = "POST"
          · rw [if_pos hm] at h ⊢
            rcases hb : ev.body with _ | data
            · refine ⟨?_, Or.inl ?_⟩ <;> simp [handleOffline, hb, tryRun]
            · cases data with
              | jnull =>
                refine ⟨?_, Or.inl ?_⟩ <;> simp [handleOffline, hb, tryRun]
              | jobj sid pg =>
                exfalso
                simp only [handleOffline, hb, tryRun] at h
                exact absurd (Option.some.inj h) (by decide)
          · rw [if_neg hm] at h
            exact absurd h (by simp)
        · rw [if_neg hp3] at h ⊢
          by_cases hp4 : stripStats ev.path = "/current"
          · rw [if_pos hp4] at h ⊢
            by_cases hm : ev.httpMethod = "GET"
            · exfalso
              rw [if_pos hm] at h
              simp only [getCurrentStats, tryRun] at h
              have h2 := congrArg Response.statusCode (Option.some.inj h)
              simp [resp500] at h2
            · rw [if_neg hm] at h
              exact absurd h (by simp)
          · rw [if_neg hp4] at h
            exfalso
            exact absurd (Option.some.inj h) (by decide)

/-- C8, witness: the amended theorem applied to the null-body page view. -/
theorem error_requests_500_sessions_intact_w :
    (handler 5 evNullBody (initState 0)).2.sessions
      = (preState 5 (initState 0)).sessions ∧
    ((handler 5 evNullBody (initState 0)).2.pageViews
        = (preState 5 (initState 0)).pageViews ∨
      (stripStats evNullBody.path = "/pageview" ∧
        evNullBody.httpMethod = "POST" ∧
        evNullBody.body = some BodyVal.jnull ∧
        (handler 5 evNullBody (initState 0)).2.pageViews
          = truncateViews ((preState 5 (initState 0)).pageViews
              ++ [⟨none, none, 5⟩]))) :=
  error_requests_500_sessions_intact 5 evNullBody (initState 0) (by decide)

end LibreTVStats
